import Mathlib

/-!
Shallow embedding of the statsd Zabbix backend (lib/zabbix.js): target
resolution, item generators for counters / timers / gauges, and the flush
orchestration with its transport completion callback.  JS strings are
modelled as lists of characters, JS numbers as rationals, and the walltime
clock as an explicit function from call index to timestamp.
-/

namespace Zbx

/-- A JS string, modelled as its list of characters. -/
abbrev Str := List Char

/-- Result of target resolution: destination host and item key. -/
structure Target where
  host : Str
  key : Str
deriving DecidableEq, Repr

/-- One addressed data point sent to Zabbix. -/
structure Item where
  host : Str
  key : Str
  value : ℚ
deriving DecidableEq, Repr

/-- Per-category publish flags; each is optional, mirroring a freeform JS
options object where absent attributes read as undefined. -/
structure CatOpts where
  enabled : Option Bool := none
  send_total : Option Bool := none
  send_avg : Option Bool := none
  send_lower : Option Bool := none
  send_upper : Option Bool := none
  send_count : Option Bool := none
  send_mean_percentile : Option Bool := none
  send_upper_percentile : Option Bool := none
deriving DecidableEq, Repr

/-- The zabbixPublishItems configuration object.  The flush code reads the
misspelled field guages for the gauge category (line 337 of the source),
so both spellings exist as possible keys of the object. -/
structure PublishItems where
  counters : Option CatOpts := none
  timers : Option CatOpts := none
  gauges : Option CatOpts := none
  guages : Option CatOpts := none
deriving DecidableEq, Repr

/-- The module-level stats record used for self-observability. -/
structure Stats where
  last_flush : ℤ
  last_exception : ℤ
  flush_time : ℤ
  flush_length : ℕ
deriving DecidableEq, Repr

/-- Logging levels used by the backend (DEBUG logging is suppressed by
default and not modelled). -/
inductive LogLevel where
  | ERROR
  | INFO
deriving DecidableEq, Repr

/-- The response object handed to the batch-sender completion callback. -/
structure Response where
  errors : Option (List Str)
  statusMessage : Option Str
  total : Option ℕ
deriving DecidableEq, Repr

/-- The metrics snapshot consumed by flush. Association lists fix the
iteration order of Object.keys. -/
structure Metrics where
  counters : List (Str × ℚ)
  timers : List (Str × List ℚ)
  gauges : List (Str × ℚ)
  pctThreshold : List ℚ
deriving DecidableEq, Repr

/-- JS String.prototype.split with a one-character separator: splitting
never yields the empty list, and empty fragments are kept. -/
def splitOnChar (sep : Char) : Str → List Str
  | [] => [[]]
  | c :: rest =>
    match splitOnChar sep rest with
    | [] => [[]]
    | g :: gs => if c = sep then [] :: g :: gs else (c :: g) :: gs

/-- JS String.prototype.startsWith for our character-list strings. -/
def hasPrefixL : Str → Str → Bool
  | [], _ => true
  | _ :: _, [] => false
  | p :: ps, c :: cs => p == c && hasPrefixL ps cs

/-- JS s.replace with a global underscore pattern and a period
replacement: every underscore character becomes a period. -/
def replUnderscore (s : Str) : Str :=
  s.map (fun c => if c = '_' then '.' else c)

/-- The guard of the first grammar in targetDecode: a logstash. or kamon.
prefix and exactly three period-separated parts. -/
def isGrammar1 (stat : Str) : Bool :=
  (hasPrefixL ("logstash.".toList) stat || hasPrefixL ("kamon.".toList) stat)
    && (splitOnChar '.' stat).length == 3

/-- Decode a target from a stat name (targetDecode in the source).  The
process hostname consulted by the statsd. branch is a parameter.  A thrown
decode error is modelled as Except.error carrying the error message. -/
def targetDecode (hostname : Str) (stat : Str) : Except Str Target :=
  let parts := splitOnChar '.' stat
  let hk : Option Str × Option Str :=
    if isGrammar1 stat then
      match parts with
      | [ns, h, k] =>
        if ns = "logstash".toList then (some (replUnderscore h), some (replUnderscore k))
        else if ns = "kamon".toList then (some (replUnderscore h), some k)
        else (some h, some k)
      | _ => (none, none)
    else if hasPrefixL ("statsd.".toList) stat then
      (some hostname, some stat)
    else
      let us := splitOnChar '_' stat
      (us[0]?, us[1]?)
  match hk with
  | (some h, some k) =>
      if h.isEmpty || k.isEmpty then
        Except.error ("failed to decode stat: ".toList ++ stat)
      else Except.ok ⟨h, k⟩
  | _ => Except.error ("failed to decode stat: ".toList ++ stat)

/-- Read one flag from an optional options object, with a default for an
absent object or an absent attribute (readSetting in the source). -/
def readSetting (settings : Option CatOpts) (get : CatOpts → Option Bool)
    (dflt : Bool) : Bool :=
  match settings with
  | none => dflt
  | some s => (get s).getD dflt

/-- JS value-or-zero: an absent (undefined / NaN) numeric value renders as
zero when emitted. -/
def orZero : Option ℚ → ℚ
  | none => 0
  | some v => v

/-- JS Math.round: round half toward positive infinity. -/
def jsRound (q : ℚ) : ℤ :=
  ⌊q + 1 / 2⌋

/-- JS array.slice(0, e): a negative end counts from the end of the array
and clamps at zero. -/
def jsSlice {α : Type} (l : List α) (e : ℤ) : List α :=
  if e < 0 then l.take (l.length - e.natAbs) else l.take e.toNat

/-- JS array indexing with a possibly negative integer index: out of range
reads give undefined, modelled as none. -/
def jsIndex {α : Type} (l : List α) (i : ℤ) : Option α :=
  if i < 0 then none else l[i.toNat]?

/-- JS Number.prototype.toString for numbers whose decimal expansion
terminates within twenty digits, which covers every percentile threshold
value the backend is given.  Rendering works on the reduced numerator and
denominator: an integral value prints its digits, and a fractional value
prints integer part, period, and the zero-padded fractional digits at the
smallest power of ten the denominator divides (non-terminating rationals,
which no JS number produces, fall back to their integer part). -/
def ratToString (q : ℚ) : Str :=
  let sign : Str := if q.num < 0 then ['-'] else []
  let n : ℕ := q.num.natAbs
  let d : ℕ := q.den
  if d = 1 then sign ++ Nat.toDigits 10 n
  else
    match (List.range 20).find? (fun k => 10 ^ (k + 1) % d == 0) with
    | some k =>
        let m := n % d * (10 ^ (k + 1) / d)
        let ds := Nat.toDigits 10 m
        sign ++ Nat.toDigits 10 (n / d) ++ '.' :: (List.replicate (k + 1 - ds.length) '0' ++ ds)
    | none => sign ++ Nat.toDigits 10 (n / d)

/-- Key suffix for a percentile threshold: its decimal rendering with the
period replaced by an underscore (the rendering holds at most one period,
so replacing the first occurrence equals replacing all). -/
def pctLabel (p : ℚ) : Str :=
  (ratToString p).map (fun c => if c = '.' then '_' else c)

/-- Generate items for a counter (itemsForCounter in the source). -/
def itemsForCounter (publishOpts : Option CatOpts) (flushInterval : ℚ)
    (host key : Str) (value : ℚ) : List Item :=
  if readSetting publishOpts CatOpts.enabled true then
    let avg := value / (flushInterval / 1000)
    (if readSetting publishOpts CatOpts.send_total true then
      [⟨host, key ++ "[total]".toList, value⟩] else [])
    ++ (if readSetting publishOpts CatOpts.send_avg true then
      [⟨host, key ++ "[avg]".toList, avg⟩] else [])
  else []

/-- Generate items for a gauge (itemsForGauge in the source). -/
def itemsForGauge (publishOpts : Option CatOpts) (host key : Str)
    (value : ℚ) : List Item :=
  if readSetting publishOpts CatOpts.enabled true then [⟨host, key, value⟩]
  else []

/-- One iteration of the percentile loop inside itemsForTimer.  The
accumulator carries the item list and the current mean and maxAtThreshold
values, which are reassigned only when the sample count exceeds one; a sum
reaching past the sliced array (possible only for thresholds above 100)
would be NaN in JS and is modelled as none. -/
def timerPctStep (sendMeanPct sendUpperPct : Bool) (host key : Str)
    (values : List ℚ) (acc : List Item × Option ℚ × Option ℚ)
    (percentile : ℚ) : List Item × Option ℚ × Option ℚ :=
  let count := values.length
  let strP := pctLabel percentile
  let st :=
    if count > 1 then
      let thresholdIndex := jsRound (((100 - percentile) / 100) * (count : ℚ))
      let numInThreshold := (count : ℤ) - thresholdIndex
      let percentValues := jsSlice values numInThreshold
      let maxAt? := jsIndex percentValues (numInThreshold - 1)
      let mean? : Option ℚ :=
        if numInThreshold ≤ (percentValues.length : ℤ) then
          some (percentValues.sum / (numInThreshold : ℚ))
        else none
      (mean?, maxAt?)
    else (acc.2.1, acc.2.2)
  let acc1 :=
    if sendMeanPct then
      acc.1 ++ [⟨host, key ++ "[mean][".toList ++ strP ++ "]".toList, orZero st.1⟩]
    else acc.1
  let acc2 :=
    if sendUpperPct then
      acc1 ++ [⟨host, key ++ "[upper][".toList ++ strP ++ "]".toList, orZero st.2⟩]
    else acc1
  (acc2, st)

/-- Generate items for a timer (itemsForTimer in the source), returning
also the final contents of the caller's sample array: data.sort sorts the
array in place, so an enabled call leaves the caller's array sorted.  The
ascending numeric sort of data.sort with the a minus b comparator is
modelled as insertion sort, which produces the same list: the ascending
sorted permutation of a list of rational values is unique. -/
def itemsForTimerS (publishOpts : Option CatOpts) (percentiles : List ℚ)
    (host key : Str) (data : List ℚ) : List Item × List ℚ :=
  if readSetting publishOpts CatOpts.enabled true then
    let values := List.insertionSort (· ≤ ·) data
    let count := values.length
    let min? := values[0]?
    let max? := values[count - 1]?
    let base :=
      (if readSetting publishOpts CatOpts.send_lower true then
        [⟨host, key ++ "[lower]".toList, orZero min?⟩] else [])
      ++ (if readSetting publishOpts CatOpts.send_upper true then
        [⟨host, key ++ "[upper]".toList, orZero max?⟩] else [])
      ++ (if readSetting publishOpts CatOpts.send_count true then
        [⟨host, key ++ "[count]".toList, (count : ℚ)⟩] else [])
    let sendMeanPct := readSetting publishOpts CatOpts.send_mean_percentile true
    let sendUpperPct := readSetting publishOpts CatOpts.send_upper_percentile true
    let items :=
      if sendMeanPct || sendUpperPct then
        (percentiles.foldl (timerPctStep sendMeanPct sendUpperPct host key values)
          (base, min?, max?)).1
      else base
    (items, values)
  else ([], data)

/-- The item list produced by the timer generator. -/
def itemsForTimer (publishOpts : Option CatOpts) (percentiles : List ℚ)
    (host key : Str) (data : List ℚ) : List Item :=
  (itemsForTimerS publishOpts percentiles host key data).1

/-- Accumulator threaded through the per-stat loop of flush: collected
items, the mutable stats record, the index of the next tsNow call, and the
non-debug log lines emitted so far. -/
structure FlushAcc where
  items : List Item
  stats : Stats
  clockIdx : ℕ
  logs : List (LogLevel × Str)
deriving Repr

/-- The handle closure inside flush: resolve the stat's target and append
the processor's items; a resolution failure records the current time in
last_exception, logs the error, and leaves the item list untouched. -/
def handleStat (clock : ℕ → ℤ) (targetBuilder : Str → Except Str Target)
    (processor : Str → Str → List Item) (stat : Str) (s : FlushAcc) : FlushAcc :=
  match targetBuilder stat with
  | Except.ok t => { s with items := s.items ++ processor t.host t.key }
  | Except.error e =>
      { s with
        stats := { s.stats with last_exception := clock s.clockIdx }
        clockIdx := s.clockIdx + 1
        logs := s.logs ++ [(LogLevel.ERROR, e)] }

/-- The collection phase of flush: iterate counters, timers, then gauges,
handling each stat, and finally store the accumulated item count in
flush_length.  Returns the accumulator and flushStart, the tsNow value
taken at the start of orchestration (clock index zero).  Note the gauge
processor reads the misspelled guages entry of publishItems, as at line
337 of the source. -/
def flushCollect (clock : ℕ → ℤ) (targetBuilder : Str → Except Str Target)
    (publishItems : PublishItems) (flushInterval : ℚ) (metrics : Metrics)
    (st0 : Stats) : FlushAcc × ℤ :=
  let flushStart := clock 0
  let s0 : FlushAcc := ⟨[], st0, 1, []⟩
  let s1 := metrics.counters.foldl (fun s p =>
    handleStat clock targetBuilder
      (fun h k => itemsForCounter publishItems.counters flushInterval h k p.2) p.1 s) s0
  let s2 := metrics.timers.foldl (fun s p =>
    handleStat clock targetBuilder
      (fun h k => itemsForTimer publishItems.timers metrics.pctThreshold h k p.2) p.1 s) s1
  let s3 := metrics.gauges.foldl (fun s p =>
    handleStat clock targetBuilder
      (fun h k => itemsForGauge publishItems.guages h k p.2) p.1 s) s2
  ({ s3 with stats := { s3.stats with flush_length := s3.items.length } }, flushStart)

/-- The batch-sender completion callback constructed inside flush.  On a
response with a non-empty errors list it records the exception time and
logs the first error; otherwise it assigns the flush timestamp to
last_flush and records flush_time as flushStart minus that just-assigned
value.  A present statusMessage is logged as informational, and
flush_length is reconciled with the transport-reported total. -/
def flushCallback (clock : ℕ → ℤ) (idx : ℕ) (timestamp flushStart : ℤ)
    (allItemsLen : ℕ) (response : Response) (st0 : Stats) :
    Stats × List (LogLevel × Str) :=
  let (st1, logs1) :=
    match response.errors with
    | some (e :: _) =>
        ({ st0 with last_exception := clock idx }, [(LogLevel.ERROR, e)])
    | _ =>
        let lastFlush := timestamp
        ({ st0 with last_flush := lastFlush, flush_time := flushStart - lastFlush },
          ([] : List (LogLevel × Str)))
  let logs2 :=
    match response.statusMessage with
    | some m => logs1 ++ [(LogLevel.INFO, m)]
    | none => logs1
  ({ st1 with flush_length := max (response.total.getD 0) allItemsLen }, logs2)

/-- A full flush cycle followed by the transport completion callback with
the given response: returns the accumulated items, the final stats record,
and all non-debug log lines. -/
def flushAndComplete (clock : ℕ → ℤ) (targetBuilder : Str → Except Str Target)
    (publishItems : PublishItems) (flushInterval : ℚ) (timestamp : ℤ)
    (metrics : Metrics) (response : Response) (st0 : Stats) :
    List Item × Stats × List (LogLevel × Str) :=
  let r := flushCollect clock targetBuilder publishItems flushInterval metrics st0
  let c := flushCallback clock r.1.clockIdx timestamp r.2 r.1.items.length response r.1.stats
  (r.1.items, c.1, r.1.logs ++ c.2)

/-! Helper lemmas about the string primitives. -/

/-- Splitting never produces the empty list of fragments. -/
theorem splitOnChar_ne_nil (sep : Char) (s : Str) : splitOnChar sep s ≠ [] := by
  cases s with
  | nil => simp [splitOnChar]
  | cons c cs =>
    simp only [splitOnChar]
    cases hcs : splitOnChar sep cs with
    | nil => simp
    | cons g gs => dsimp only; split <;> simp

/-- A fragment without the separator splits into itself alone. -/
theorem splitOnChar_of_not_mem {sep : Char} {a : Str} (h : sep ∉ a) :
    splitOnChar sep a = [a] := by
  induction a with
  | nil => rfl
  | cons c cs ih =>
    have hc : ¬ c = sep := fun hco => h (hco ▸ List.mem_cons_self c cs)
    have hcs : sep ∉ cs := fun hm => h (List.mem_cons_of_mem _ hm)
    simp [splitOnChar, ih hcs, hc]

/-- Splitting peels off a separator-free fragment before a separator. -/
theorem splitOnChar_append {sep : Char} {a rest : Str} (h : sep ∉ a) :
    splitOnChar sep (a ++ sep :: rest) = a :: splitOnChar sep rest := by
  induction a with
  | nil =>
    simp only [List.nil_append, splitOnChar]
    cases hr : splitOnChar sep rest with
    | nil => exact absurd hr (splitOnChar_ne_nil sep rest)
    | cons g gs => simp
  | cons c cs ih =>
    have hc : ¬ c = sep := fun hco => h (hco ▸ List.mem_cons_self c cs)
    have hcs : sep ∉ cs := fun hm => h (List.mem_cons_of_mem _ hm)
    simp only [List.cons_append, splitOnChar, List.append_eq]
    rw [ih hcs]
    simp [hc]

/-- Decidable equality for resolution results, used to settle concrete
instances by evaluation. -/
instance : DecidableEq (Except Str Target) := fun a b =>
  match a, b with
  | Except.ok x, Except.ok y =>
      if h : x = y then isTrue (by rw [h]) else isFalse (by intro hc; cases hc; exact h rfl)
  | Except.error x, Except.error y =>
      if h : x = y then isTrue (by rw [h]) else isFalse (by intro hc; cases hc; exact h rfl)
  | Except.ok _, Except.error _ => isFalse (by intro hc; cases hc)
  | Except.error _, Except.ok _ => isFalse (by intro hc; cases hc)

/-- Every string extending a prefix passes the prefix test. -/
theorem hasPrefixL_append (p rest : Str) : hasPrefixL p (p ++ rest) = true := by
  induction p with
  | nil => rfl
  | cons c cs ih => simp [hasPrefixL, ih]

/-- C1 counterexample: the name a_b_c matches neither grammar 1 nor the
statsd. grammar, and the default branch resolves it to host a and key b,
not to the claimed key b_c (the remainder after the first underscore). -/
theorem c1_cex :
    isGrammar1 ("a_b_c".toList) = false
    ∧ hasPrefixL ("statsd.".toList) ("a_b_c".toList) = false
    ∧ targetDecode ("h".toList) ("a_b_c".toList) = Except.ok ⟨"a".toList, "b".toList⟩
    ∧ targetDecode ("h".toList) ("a_b_c".toList) ≠ Except.ok ⟨"a".toList, "b_c".toList⟩ := by
  decide

/-- C1 (amended): for a name that matches neither grammar 1 nor the
statsd. grammar, resolution splits the name on every underscore and keeps
the first two segments: host is the text before the first underscore and
key is the text between the first and second underscore (any text after a
second underscore is discarded).  It succeeds when both segments are
non-empty, and throws when either of the first two segments is empty or
when the name holds no underscore at all (a single segment). -/
theorem c1_default_split (hn stat : Str)
    (hg : isGrammar1 stat = false)
    (hs : hasPrefixL ("statsd.".toList) stat = false) :
    (∀ h k rest, splitOnChar '_' stat = h :: k :: rest → h ≠ [] → k ≠ [] →
      targetDecode hn stat = Except.ok ⟨h, k⟩)
    ∧ (∀ h k rest, splitOnChar '_' stat = h :: k :: rest → h = [] ∨ k = [] →
      targetDecode hn stat = Except.error ("failed to decode stat: ".toList ++ stat))
    ∧ (∀ h, splitOnChar '_' stat = [h] →
      targetDecode hn stat = Except.error ("failed to decode stat: ".toList ++ stat)) := by
  refine ⟨?_, ?_, ?_⟩
  · intro h k rest hsplit hh hk
    unfold targetDecode
    rw [hg, hs, hsplit]
    simp [hh, hk]
  · intro h k rest hsplit hek
    unfold targetDecode
    rw [hg, hs, hsplit]
    rcases hek with he | he
    · simp [he]
    · simp [he]
  · intro h hsplit
    unfold targetDecode
    rw [hg, hs, hsplit]
    simp

/-- Concrete instances of the amended C1 statement: a_b_c resolves to
host a and key b, a_ throws on its empty key segment, and plainname
throws for lack of an underscore. -/
theorem c1_default_split_witness :
    targetDecode ("h".toList) ("a_b_c".toList) = Except.ok ⟨"a".toList, "b".toList⟩
    ∧ targetDecode ("h".toList) ("a_".toList)
        = Except.error ("failed to decode stat: a_".toList)
    ∧ targetDecode ("h".toList) ("plainname".toList)
        = Except.error ("failed to decode stat: plainname".toList) :=
  ⟨(c1_default_split ("h".toList) ("a_b_c".toList) (by decide) (by decide)).1
      ("a".toList) ("b".toList) [("c".toList)] (by decide) (by decide) (by decide),
   (c1_default_split ("h".toList) ("a_".toList) (by decide) (by decide)).2.1
      ("a".toList) [] [] (by decide) (Or.inr rfl),
   (c1_default_split ("h".toList) ("plainname".toList) (by decide) (by decide)).2.2
      ("plainname".toList) (by decide)⟩

/-- C4 counterexample: logstash..x splits on periods into exactly three
parts and carries the logstash. prefix, yet resolution throws because the
host part is empty. -/
theorem c4_cex :
    (splitOnChar '.' ("logstash..x".toList)).length = 3
    ∧ hasPrefixL ("logstash.".toList) ("logstash..x".toList) = true
    ∧ targetDecode ("hn".toList) ("logstash..x".toList)
        = Except.error ("failed to decode stat: logstash..x".toList) := by
  decide

/-- C4 (amended): for every metric name namespace.host.key whose namespace
is logstash or kamon, whose host and key parts are non-empty and contain
no period, the decoding resolver succeeds, replacing every underscore with
a period in both host and key for logstash and in host only for kamon. -/
theorem c4_grammar1_resolves (hn h k : Str) (hh : h ≠ []) (hk : k ≠ [])
    (hdh : '.' ∉ h) (hdk : '.' ∉ k) :
    targetDecode hn ("logstash".toList ++ '.' :: (h ++ '.' :: k))
      = Except.ok ⟨replUnderscore h, replUnderscore k⟩
    ∧ targetDecode hn ("kamon".toList ++ '.' :: (h ++ '.' :: k))
      = Except.ok ⟨replUnderscore h, k⟩ := by
  have hdl : '.' ∉ ("logstash".toList : Str) := by decide
  have hdn : '.' ∉ ("kamon".toList : Str) := by decide
  have hsl : splitOnChar '.' ("logstash".toList ++ '.' :: (h ++ '.' :: k))
      = ["logstash".toList, h, k] := by
    rw [splitOnChar_append hdl, splitOnChar_append hdh, splitOnChar_of_not_mem hdk]
  have hsk : splitOnChar '.' ("kamon".toList ++ '.' :: (h ++ '.' :: k))
      = ["kamon".toList, h, k] := by
    rw [splitOnChar_append hdn, splitOnChar_append hdh, splitOnChar_of_not_mem hdk]
  have hpl : hasPrefixL ("logstash.".toList) ("logstash".toList ++ '.' :: (h ++ '.' :: k))
      = true := rfl
  have hpk : hasPrefixL ("kamon.".toList) ("kamon".toList ++ '.' :: (h ++ '.' :: k))
      = true := rfl
  have hgl : isGrammar1 ("logstash".toList ++ '.' :: (h ++ '.' :: k)) = true := by
    unfold isGrammar1
    rw [hsl, hpl]
    rfl
  have hgk : isGrammar1 ("kamon".toList ++ '.' :: (h ++ '.' :: k)) = true := by
    unfold isGrammar1
    rw [hsk, hpk]
    rfl
  constructor
  · unfold targetDecode
    rw [hgl, hsl]
    simp [replUnderscore, hh, hk]
  · unfold targetDecode
    rw [hgk, hsk]
    simp [replUnderscore, hh, hk]

/-- Concrete instance of the amended C4 statement. -/
theorem c4_grammar1_resolves_witness :
    targetDecode ("hn".toList)
        ("logstash".toList ++ '.' :: ("my_host".toList ++ '.' :: "some_key".toList))
      = Except.ok ⟨replUnderscore ("my_host".toList), replUnderscore ("some_key".toList)⟩
    ∧ targetDecode ("hn".toList)
        ("kamon".toList ++ '.' :: ("my_host".toList ++ '.' :: "some_key".toList))
      = Except.ok ⟨replUnderscore ("my_host".toList), "some_key".toList⟩ :=
  c4_grammar1_resolves ("hn".toList) ("my_host".toList) ("some_key".toList)
    (by decide) (by decide) (by decide) (by decide)

/-- C5: for samples one through ten and percentile threshold ninety with
all toggles enabled, the timer generator emits lower one, upper ten, count
ten, a mean-at-ninety of five (the average of the lowest nine sorted
samples, with thresholdIndex one and numInThreshold nine) and an
upper-at-ninety of nine (the largest of those nine samples). -/
theorem c5_percentile_ninety :
    itemsForTimer none [90] ("h".toList) ("k".toList) [1, 2, 3, 4, 5, 6, 7, 8, 9, 10]
      = [⟨"h".toList, "k[lower]".toList, 1⟩,
         ⟨"h".toList, "k[upper]".toList, 10⟩,
         ⟨"h".toList, "k[count]".toList, 10⟩,
         ⟨"h".toList, "k[mean][90]".toList, 5⟩,
         ⟨"h".toList, "k[upper][90]".toList, 9⟩] := by
  have hsort : List.insertionSort (· ≤ ·) ([1, 2, 3, 4, 5, 6, 7, 8, 9, 10] : List ℚ)
      = [1, 2, 3, 4, 5, 6, 7, 8, 9, 10] := by decide
  have hround : jsRound (((100 - 90) / 100) * (10 : ℚ)) = 1 := by
    unfold jsRound
    rw [show ((100 - (90 : ℚ)) / 100) * (10 : ℚ) + 1 / 2 = 3 / 2 by norm_num]
    rw [Int.floor_eq_iff]
    norm_num
  have hlabel : pctLabel 90 = ['9', '0'] := by decide
  simp [itemsForTimer, itemsForTimerS, timerPctStep, readSetting, jsSlice, jsIndex,
    orZero, hsort, hround, hlabel]
  norm_num

/-- The percentile loop body on an empty sample array: the count is zero,
so mean and maxAtThreshold keep their carried values (undefined for an
empty array) and both points are emitted with the zero fallback. -/
theorem timerPctStep_nil (host key : Str) (acc : List Item) (p : ℚ) :
    timerPctStep true true host key [] (acc, (none : Option ℚ), (none : Option ℚ)) p
      = (acc ++ [⟨host, key ++ "[mean][".toList ++ pctLabel p ++ "]".toList, 0⟩,
          ⟨host, key ++ "[upper][".toList ++ pctLabel p ++ "]".toList, 0⟩],
         none, none) := by
  simp [timerPctStep, orZero]

/-- Folding the percentile loop over any threshold list with an empty
sample array emits exactly one zero mean point and one zero upper point
per threshold, in threshold order. -/
theorem timerPctStep_nil_fold (host key : Str) (ps : List ℚ) (acc : List Item) :
    ps.foldl (timerPctStep true true host key [])
        (acc, (none : Option ℚ), (none : Option ℚ))
      = (acc ++ ps.flatMap (fun p =>
          [⟨host, key ++ "[mean][".toList ++ pctLabel p ++ "]".toList, 0⟩,
           ⟨host, key ++ "[upper][".toList ++ pctLabel p ++ "]".toList, 0⟩]),
         none, none) := by
  induction ps generalizing acc with
  | nil => simp
  | cons p ps ih =>
    rw [List.foldl_cons, timerPctStep_nil, ih]
    simp

/-- C8: on an empty sample sequence with all toggles enabled the timer
generator emits lower, upper and count as zero, then for each configured
percentile threshold a zero mean point and a zero upper point, and
nothing else. -/
theorem c8_timer_empty (ps : List ℚ) (host key : Str) :
    itemsForTimer none ps host key []
      = [⟨host, key ++ "[lower]".toList, 0⟩,
         ⟨host, key ++ "[upper]".toList, 0⟩,
         ⟨host, key ++ "[count]".toList, 0⟩]
        ++ ps.flatMap (fun p =>
          [⟨host, key ++ "[mean][".toList ++ pctLabel p ++ "]".toList, 0⟩,
           ⟨host, key ++ "[upper][".toList ++ pctLabel p ++ "]".toList, 0⟩]) := by
  simp [itemsForTimer, itemsForTimerS, readSetting, orZero, timerPctStep_nil_fold]

/-- Sorting an already sorted list of rationals changes nothing. -/
theorem insertionSort_rat_idem (l : List ℚ) :
    List.insertionSort (· ≤ ·) (List.insertionSort (· ≤ ·) l)
      = List.insertionSort (· ≤ ·) l :=
  List.Sorted.insertionSort_eq (List.sorted_insertionSort _ l)

/-- C9: the timer generator's output depends on its sample sequence only
through the ascending sort, so calling it on a sequence and calling it on
the sorted sequence (as a second call observes after the in-place sort)
produce identical outputs. -/
theorem c9_timer_sort_invariant (opts : Option CatOpts) (ps : List ℚ) (host key : Str)
    (data : List ℚ) :
    itemsForTimer opts ps host key data
      = itemsForTimer opts ps host key (List.insertionSort (· ≤ ·) data) := by
  by_cases hen : readSetting opts CatOpts.enabled true = true
  · simp only [itemsForTimer, itemsForTimerS, hen, if_true, insertionSort_rat_idem]
  · simp only [itemsForTimer, itemsForTimerS, if_neg hen]

/-- C10: when the timer category is enabled the generator sorts the
caller's sample array in place, so afterwards the caller observes the
ascending sorted permutation of what it passed in; whenever the input was
not already sorted this differs from the original order. -/
theorem c10_timer_sorts_in_place (opts : Option CatOpts) (ps : List ℚ) (host key : Str)
    (data : List ℚ) (hen : readSetting opts CatOpts.enabled true = true) :
    (itemsForTimerS opts ps host key data).2 = List.insertionSort (· ≤ ·) data
    ∧ ((itemsForTimerS opts ps host key data).2).Perm data
    ∧ List.Sorted (· ≤ ·) ((itemsForTimerS opts ps host key data).2)
    ∧ (¬ List.Sorted (· ≤ ·) data → (itemsForTimerS opts ps host key data).2 ≠ data) := by
  have hsorted : List.Sorted (· ≤ ·) (List.insertionSort (· ≤ ·) data) :=
    List.sorted_insertionSort _ data
  have h2 : (itemsForTimerS opts ps host key data).2
      = List.insertionSort (· ≤ ·) data := by
    simp [itemsForTimerS, hen]
  refine ⟨h2, ?_, ?_, ?_⟩
  · rw [h2]
    exact List.perm_insertionSort _ data
  · rw [h2]
    exact hsorted
  · intro hns heq
    apply hns
    have hms : List.insertionSort (· ≤ ·) data = data := by rw [← h2, heq]
    rw [← hms]
    exact hsorted

/-- Concrete instance of C10 on the unsorted array containing two then
one. -/
theorem c10_timer_sorts_in_place_witness :
    (itemsForTimerS none [] ("h".toList) ("k".toList) [2, 1]).2
      = List.insertionSort (· ≤ ·) ([2, 1] : List ℚ)
    ∧ ((itemsForTimerS none [] ("h".toList) ("k".toList) [2, 1]).2).Perm [2, 1]
    ∧ List.Sorted (· ≤ ·) ((itemsForTimerS none [] ("h".toList) ("k".toList) [2, 1]).2)
    ∧ (¬ List.Sorted (· ≤ ·) ([2, 1] : List ℚ)
        → (itemsForTimerS none [] ("h".toList) ("k".toList) [2, 1]).2 ≠ [2, 1]) :=
  c10_timer_sorts_in_place none [] ("h".toList) ("k".toList) [2, 1] rfl

/-- Configuration for the C2 scenario: the gauges entry disables the
category, and the misspelled guages entry the flush code actually reads is
absent. -/
def c2PublishItems : PublishItems :=
  { gauges := some { enabled := some false } }

/-- Metrics snapshot for the C2 scenario: a single gauge stat. -/
def c2Metrics : Metrics :=
  { counters := [], timers := [], gauges := [(("host_gauge".toList), 7)], pctThreshold := [] }

/-- C2 (code bug): with the gauges publish-options entry disabled, the
flush orchestrator still produces the gauge point, because the gauge
processor is bound to the misspelled guages entry (absent here, so every
flag defaults to true) instead of the gauges entry named after the
category. -/
theorem c2_gauge_options_misread :
    readSetting c2PublishItems.gauges CatOpts.enabled true = false
    ∧ c2PublishItems.guages = none
    ∧ (flushCollect (fun _ => 0) (targetDecode ("hn".toList)) c2PublishItems 10000
        c2Metrics ⟨0, 0, 0, 0⟩).1.items
      = [⟨"host".toList, "gauge".toList, 7⟩] := by
  decide

/-- C3: on a response with no errors (absent or empty errors field) the
completion callback assigns the flush timestamp to last_flush and records
flush_time as flushStart minus that just-assigned timestamp — a value
independent of the previous flush's timestamp. -/
theorem c3_flush_time_arithmetic (clock : ℕ → ℤ) (idx : ℕ)
    (timestamp flushStart : ℤ) (len : ℕ) (response : Response) (st : Stats)
    (hre : response.errors = none ∨ response.errors = some []) :
    (flushCallback clock idx timestamp flushStart len response st).1.last_flush = timestamp
    ∧ (flushCallback clock idx timestamp flushStart len response st).1.flush_time
        = flushStart - timestamp := by
  rcases hre with h | h
  · simp [flushCallback, h]
  · simp [flushCallback, h]

/-- Concrete instance of C3 with flushStart 105 and flush timestamp 100:
flush_time becomes 5, not the distance to the previous last_flush 7. -/
theorem c3_flush_time_arithmetic_witness :
    (flushCallback (fun _ => 0) 1 100 105 3 ⟨none, none, none⟩ ⟨7, 0, 0, 0⟩).1.last_flush = 100
    ∧ (flushCallback (fun _ => 0) 1 100 105 3 ⟨none, none, none⟩ ⟨7, 0, 0, 0⟩).1.flush_time
        = 105 - 100 :=
  c3_flush_time_arithmetic (fun _ => 0) 1 100 105 3 ⟨none, none, none⟩ ⟨7, 0, 0, 0⟩
    (Or.inl rfl)

/-- C7: on a response whose errors list is non-empty the completion
callback records the clock value in last_exception, surfaces exactly the
first error at ERROR level, and leaves last_flush and flush_time
unchanged. -/
theorem c7_transport_error_handling (clock : ℕ → ℤ) (idx : ℕ)
    (timestamp flushStart : ℤ) (len : ℕ) (e : Str) (rest : List Str)
    (sm : Option Str) (tot : Option ℕ) (st : Stats) :
    (flushCallback clock idx timestamp flushStart len
        ⟨some (e :: rest), sm, tot⟩ st).1.last_exception = clock idx
    ∧ (flushCallback clock idx timestamp flushStart len
        ⟨some (e :: rest), sm, tot⟩ st).1.last_flush = st.last_flush
    ∧ (flushCallback clock idx timestamp flushStart len
        ⟨some (e :: rest), sm, tot⟩ st).1.flush_time = st.flush_time
    ∧ ((flushCallback clock idx timestamp flushStart len
        ⟨some (e :: rest), sm, tot⟩ st).2.filter
          (fun l => l.1 == LogLevel.ERROR)).map Prod.snd = [e] := by
  cases sm
  · simp [flushCallback]
  · simp [flushCallback]

/-- C6: a resolution failure for one stat never aborts the flush: with
five counter stats of which exactly the third fails to resolve, the
accumulated items are the generated points of the four resolvable stats
in iteration order, last_exception is set to the clock value taken at the
failure, and when the transport then reports no errors last_flush is set
to the flush timestamp. -/
theorem c6_isolated_failure (clock : ℕ → ℤ) (hn : Str) (publishItems : PublishItems)
    (flushInterval : ℚ) (timestamp : ℤ) (a b c d e : Str) (va vb vc vd ve : ℚ)
    (ta tb td te : Target) (m : Str) (response : Response) (st0 : Stats)
    (ha : targetDecode hn a = Except.ok ta) (hb : targetDecode hn b = Except.ok tb)
    (hc : targetDecode hn c = Except.error m) (hd : targetDecode hn d = Except.ok td)
    (he : targetDecode hn e = Except.ok te)
    (hresp : response.errors = none ∨ response.errors = some []) :
    (flushAndComplete clock (targetDecode hn) publishItems flushInterval timestamp
        ⟨[(a, va), (b, vb), (c, vc), (d, vd), (e, ve)], [], [], []⟩ response st0).1
      = itemsForCounter publishItems.counters flushInterval ta.host ta.key va
        ++ itemsForCounter publishItems.counters flushInterval tb.host tb.key vb
        ++ itemsForCounter publishItems.counters flushInterval td.host td.key vd
        ++ itemsForCounter publishItems.counters flushInterval te.host te.key ve
    ∧ (flushAndComplete clock (targetDecode hn) publishItems flushInterval timestamp
        ⟨[(a, va), (b, vb), (c, vc), (d, vd), (e, ve)], [], [], []⟩ response st0).2.1.last_exception
      = clock 1
    ∧ (flushAndComplete clock (targetDecode hn) publishItems flushInterval timestamp
        ⟨[(a, va), (b, vb), (c, vc), (d, vd), (e, ve)], [], [], []⟩ response st0).2.1.last_flush
      = timestamp := by
  rcases hresp with h | h
  · simp [flushAndComplete, flushCollect, handleStat, flushCallback, ha, hb, hc, hd, he, h]
  · simp [flushAndComplete, flushCollect, handleStat, flushCallback, ha, hb, hc, hd, he, h]

/-- Concrete instance of C6: five counter stats where only nounderscore
fails to resolve. -/
theorem c6_isolated_failure_witness :
    (flushAndComplete (fun i => (i : ℤ)) (targetDecode ("hn".toList)) ⟨none, none, none, none⟩
        10000 1234
        ⟨[(("hosta_ka".toList), 1), (("hostb_kb".toList), 2), (("nounderscore".toList), 3),
          (("hostd_kd".toList), 4), (("hoste_ke".toList), 5)], [], [], []⟩
        ⟨none, none, none⟩ ⟨0, 0, 0, 0⟩).1
      = itemsForCounter none 10000 ("hosta".toList) ("ka".toList) 1
        ++ itemsForCounter none 10000 ("hostb".toList) ("kb".toList) 2
        ++ itemsForCounter none 10000 ("hostd".toList) ("kd".toList) 4
        ++ itemsForCounter none 10000 ("hoste".toList) ("ke".toList) 5
    ∧ (flushAndComplete (fun i => (i : ℤ)) (targetDecode ("hn".toList)) ⟨none, none, none, none⟩
        10000 1234
        ⟨[(("hosta_ka".toList), 1), (("hostb_kb".toList), 2), (("nounderscore".toList), 3),
          (("hostd_kd".toList), 4), (("hoste_ke".toList), 5)], [], [], []⟩
        ⟨none, none, none⟩ ⟨0, 0, 0, 0⟩).2.1.last_exception = 1
    ∧ (flushAndComplete (fun i => (i : ℤ)) (targetDecode ("hn".toList)) ⟨none, none, none, none⟩
        10000 1234
        ⟨[(("hosta_ka".toList), 1), (("hostb_kb".toList), 2), (("nounderscore".toList), 3),
          (("hostd_kd".toList), 4), (("hoste_ke".toList), 5)], [], [], []⟩
        ⟨none, none, none⟩ ⟨0, 0, 0, 0⟩).2.1.last_flush = 1234 :=
  c6_isolated_failure (fun i => (i : ℤ)) ("hn".toList) ⟨none, none, none, none⟩ 10000 1234
    ("hosta_ka".toList) ("hostb_kb".toList) ("nounderscore".toList)
    ("hostd_kd".toList) ("hoste_ke".toList) 1 2 3 4 5
    ⟨"hosta".toList, "ka".toList⟩ ⟨"hostb".toList, "kb".toList⟩
    ⟨"hostd".toList, "kd".toList⟩ ⟨"hoste".toList, "ke".toList⟩
    ("failed to decode stat: nounderscore".toList) ⟨none, none, none⟩ ⟨0, 0, 0, 0⟩
    (by decide) (by decide) (by decide) (by decide) (by decide) (Or.inl rfl)

end Zbx
